import Mathlib

/-!
Shallow embedding of the aamva-rs barcode decoder (src/lib.rs and src/data.rs).

Strings are modelled as `List Char` (the payloads are ASCII, so Rust's byte
indices and `char` positions coincide).  The nom parser combinators used by the
source are modelled as functions `List Char → Option (List Char × α)`; `none`
stands for a nom parse error.  Code that can panic (out-of-bounds slicing) is
modelled in `PRes`, whose `panic` constructor marks a Rust panic; integer
overflow of `u16` arithmetic is modelled with `% 2 ^ 16` (release-profile
wrapping).
-/

/-! ## Character helpers (ASCII semantics, mirroring the Rust std functions) -/

/-- Model of nom's ASCII digit predicate (`0`–`9`). -/
def isDigitB (c : Char) : Bool := 48 ≤ c.toNat && c.toNat ≤ 57

/-- Model of nom's ASCII alphabetic predicate (`a`–`z`, `A`–`Z`). -/
def isAlphaB (c : Char) : Bool :=
  (65 ≤ c.toNat && c.toNat ≤ 90) || (97 ≤ c.toNat && c.toNat ≤ 122)

/-- Whitespace recognized by Rust's `str::trim` within the ASCII range. -/
def isRustWs (c : Char) : Bool := c.toNat = 32 || (9 ≤ c.toNat && c.toNat ≤ 13)

/-- Numeric value of an ASCII digit. -/
def digitVal (c : Char) : Nat := c.toNat - 48

/-- Decimal value of a run of ASCII digits (as `u32::from_str_radix` computes it). -/
def natOfDigits (cs : List Char) : Nat := cs.foldl (fun a c => 10 * a + digitVal c) 0

/-- `str::trim` on a character list. -/
def rustTrimL (l : List Char) : List Char :=
  ((l.dropWhile isRustWs).reverse.dropWhile isRustWs).reverse

/-- `str::trim` on a `String`. -/
def rustTrim (s : String) : String := String.mk (rustTrimL s.data)

/-- `char::to_ascii_lowercase`. -/
def asciiLowerC (c : Char) : Char :=
  if 65 ≤ c.toNat ∧ c.toNat ≤ 90 then Char.ofNat (c.toNat + 32) else c

/-- `char::to_ascii_uppercase`. -/
def asciiUpperC (c : Char) : Char :=
  if 97 ≤ c.toNat ∧ c.toNat ≤ 122 then Char.ofNat (c.toNat - 32) else c

/-- `str::to_ascii_lowercase`. -/
def asciiLower (s : String) : String := String.mk (s.data.map asciiLowerC)

/-- `str::to_ascii_uppercase`. -/
def asciiUpper (s : String) : String := String.mk (s.data.map asciiUpperC)

/-- Is `pre` a leading segment of `l`?  (`str::starts_with`.) -/
def isLeadingSeg : List Char → List Char → Bool
  | [], _ => true
  | _ :: _, [] => false
  | p :: ps, c :: cs => p = c && isLeadingSeg ps cs

/-- `str::strip_suffix`: remove a trailing segment if present. -/
def stripSuffixL (suf l : List Char) : Option (List Char) :=
  if isLeadingSeg suf.reverse l.reverse then some (l.take (l.length - suf.length)) else none

/-- `str::split_once`: split at the first occurrence of `c`, which is dropped. -/
def splitOnceL (c : Char) : List Char → Option (List Char × List Char)
  | [] => none
  | x :: xs =>
    if x = c then some ([], xs)
    else (splitOnceL c xs).map (fun p => (x :: p.1, p.2))

/-- `str::parse::<u16>`: optional leading `+`, then one or more decimal digits,
whose value must fit in 16 bits. -/
def parseU16 (cs : List Char) : Option Nat :=
  let cs' := match cs with
    | '+' :: rest => rest
    | other => other
  if cs' ≠ [] ∧ cs'.all isDigitB ∧ natOfDigits cs' < 2 ^ 16 then some (natOfDigits cs') else none

/-- `u8::from_str_radix(_, 10)` on an already-extracted token. -/
def parseRadixU8 (cs : List Char) : Option Nat :=
  if cs ≠ [] ∧ cs.all isDigitB ∧ natOfDigits cs < 2 ^ 8 then some (natOfDigits cs) else none

/-- `u32::from_str_radix(_, 10)` on an already-extracted token. -/
def parseRadixU32 (cs : List Char) : Option Nat :=
  if cs ≠ [] ∧ cs.all isDigitB ∧ natOfDigits cs < 2 ^ 32 then some (natOfDigits cs) else none

/-! ## nom combinator model

A parser takes the remaining input and returns `none` (nom error) or
`some (rest, output)`. -/

/-- The type of an embedded nom parser over `&str` input. -/
def PM (α : Type) : Type := List Char → Option (List Char × α)

/-- nom `take(n)`: exactly `n` characters, failing on short input. -/
def takeP (n : Nat) : PM (List Char) := fun input =>
  if n ≤ input.length then some (input.drop n, input.take n) else none

/-- nom `tag(lit)`. -/
def tagP (lit : List Char) : PM (List Char) := fun input =>
  if isLeadingSeg lit input then some (input.drop lit.length, lit) else none

/-- nom `digit1`: one or more ASCII digits. -/
def digit1P : PM (List Char) := fun input =>
  let ds := input.takeWhile isDigitB
  if ds = [] then none else some (input.dropWhile isDigitB, ds)

/-- nom `alpha1`: one or more ASCII alphabetic characters. -/
def alpha1P : PM (List Char) := fun input =>
  let ds := input.takeWhile isAlphaB
  if ds = [] then none else some (input.dropWhile isAlphaB, ds)

/-- nom `multispace0`. -/
def isMultispace (c : Char) : Bool := c = ' ' || c = '\t' || c = '\r' || c = '\n'

/-- nom `multispace0`: any run (possibly empty) of spaces, tabs, CR, LF. -/
def multispace0P : PM (List Char) := fun input =>
  some (input.dropWhile isMultispace, input.takeWhile isMultispace)

/-- nom `take_till(p)`: consume until `p` holds (never fails). -/
def takeTillP (p : Char → Bool) : PM (List Char) := fun input =>
  some (input.dropWhile (fun c => !(p c)), input.takeWhile (fun c => !(p c)))

/-- Helper for nom `take_until(t)`: split off the shortest strict head before the
first occurrence of `t`; `none` when `t` does not occur. -/
def splitAtSub (t : List Char) : List Char → Option (List Char × List Char)
  | [] => if t.isEmpty then some ([], []) else none
  | c :: cs =>
    if isLeadingSeg t (c :: cs) then some ([], c :: cs)
    else (splitAtSub t cs).map (fun p => (c :: p.1, p.2))

/-- nom `take_until(t)`: returns (input from the match onward, consumed head). -/
def takeUntilP (t : List Char) : PM (List Char) := fun input =>
  (splitAtSub t input).map (fun p => (p.2, p.1))

/-- nom `eof`. -/
def eofP : PM (List Char) := fun input =>
  match input with
  | [] => some ([], [])
  | _ => none

/-- nom `alt((p, q))` for two branches. -/
def alt2 {α : Type} (p q : PM α) : PM α := fun input =>
  match p input with
  | none => q input
  | r => r

/-- nom `opt(p)`. -/
def optP {α : Type} (p : PM α) : PM (Option α) := fun input =>
  match p input with
  | some (rest, a) => some (rest, some a)
  | none => some (input, none)

/-- nom `map_parser(p, q)`: run `q` over `p`'s output; `q` need not consume all
of it — its leftovers are discarded. -/
def mapParserP {α : Type} (p : PM (List Char)) (q : PM α) : PM α := fun input =>
  match p input with
  | none => none
  | some (rest, out) =>
    match q out with
    | none => none
    | some (_, a) => some (rest, a)

/-- nom `map_res(p, f)`. -/
def mapResP {α β : Type} (p : PM α) (f : α → Option β) : PM β := fun input =>
  match p input with
  | none => none
  | some (rest, a) =>
    match f a with
    | none => none
    | some b => some (rest, b)

/-- Fueled worker for nom `many0`: collect results until the embedded parser
fails; a success that consumes nothing is nom's `Many0` error. -/
def many0Go {α : Type} (p : PM α) : Nat → List Char → Option (List Char × List α)
  | 0, input => some (input, [])
  | fuel + 1, input =>
    match p input with
    | none => some (input, [])
    | some (rest, a) =>
      if rest.length < input.length then
        (many0Go p fuel rest).map (fun r => (r.1, a :: r.2))
      else none

/-- nom `many0(p)`. -/
def many0P {α : Type} (p : PM α) : PM (List α) := fun input =>
  many0Go p (input.length + 1) input

/-! ## The fixed-width numeric tokens of the header grammar (src/lib.rs 307–317) -/

/-- `digit_0_to_99`: 2-character window, digits parsed as `u8`. -/
def digit_0_to_99 : PM Nat := mapResP (mapParserP (takeP 2) digit1P) parseRadixU8

/-- `digit_4char`: 4-character window, digits parsed as `u32`. -/
def digit_4char : PM Nat := mapResP (mapParserP (takeP 4) digit1P) parseRadixU32

/-! ## Data model (src/lib.rs 19–110, src/data.rs 14–112) -/

/-- `SubfileType` (src/lib.rs 47–53). -/
inductive SubfileType : Type where
  | DL : SubfileType
  | EN : SubfileType
  | ID : SubfileType
  | JurisdictionSpecific : Char → SubfileType
deriving DecidableEq, Repr

/-- `Display for SubfileType` (src/lib.rs 55–64). -/
def SubfileType.toStr : SubfileType → List Char
  | .DL => ['D', 'L']
  | .EN => ['E', 'N']
  | .ID => ['I', 'D']
  | .JurisdictionSpecific c => ['Z', c]

/-- `FromStr for SubfileType` (src/lib.rs 91–110), on the characters of the
2-character window produced by `take(2)`. -/
def SubfileType.fromStr (cs : List Char) : Option SubfileType :=
  if cs = ['D', 'L'] then some .DL
  else if cs = ['E', 'N'] then some .EN
  else if cs = ['I', 'D'] then some .ID
  else if isLeadingSeg ['Z'] cs then (cs.get? 1).map SubfileType.JurisdictionSpecific
  else none

/-- `SubfileDesignator` (src/lib.rs 34–39). -/
structure SubfileDesignator : Type where
  subfile_type : SubfileType
  offset : Nat
  length : Nat
deriving DecidableEq, Repr

/-- `Header` (src/lib.rs 25–32). -/
structure Header : Type where
  issuer_id : Nat
  version_number : Nat
  jurisdiction_version_number : Option Nat
  number_of_entries : Nat
  subfile_designators : List SubfileDesignator
deriving DecidableEq, Repr

/-- `DataElement` (src/lib.rs 41–45). -/
structure DataElement : Type where
  id : String
  value : Option String
deriving DecidableEq, Repr

/-- `IssuerCountry` (src/data.rs 14–20). -/
inductive IssuerCountry : Type where
  | UnitedStates : IssuerCountry
  | Canada : IssuerCountry
  | Mexico : IssuerCountry
deriving DecidableEq, Repr

/-- `IssuerIdentification` (src/data.rs 22–98). -/
inductive IssuerIdentification : Type where
  | Alabama | Alaska | Alberta | AmericanSamoa | Arizona | Arkansas
  | BritishColumbia | California | Coahuila | Colorado | Connecticut
  | Delaware | DistrictOfColumbia | Florida | Georgia | Guam | Hawaii
  | Hidalgo | Idaho | Illinois | Indiana | Iowa | Kansas | Kentucky
  | Louisiana | Maine | Manitoba | Maryland | Massachusetts | Michigan
  | Minnesota | Mississippi | Missouri | Montana | Nebraska | Nevada
  | NewBrunswick | Newfoundland | NewHampshire | NewJersey | NewMexico
  | NewYork | NorthCarolina | NorthDakota | NortherMariannaIslands
  | NorthwestTerritories | NovaScotia | Nunavut | Ohio | Oklahoma
  | Ontario | Oregon | Pennsylvania | PrinceEdwardIsland | PuertoRico
  | Quebec | RhodeIsland | Saskatchewan | SouthCarolina | SouthDakota
  | StateDepartment | Tennessee | Texas | Utah | Vermont | Virginia
  | VirginIslands | Washington | WestVirginia | Wisconsin | Wyoming | Yukon
deriving DecidableEq, Repr

/-- `TryFromPrimitive` reverse lookup for `IssuerIdentification`, including the
`num_enum` alternate code 990876 for Alberta. -/
def IssuerIdentification.tryFrom (n : Nat) : Option IssuerIdentification :=
  if n = 636033 then some .Alabama
  else if n = 636059 then some .Alaska
  else if n = 604432 then some .Alberta
  else if n = 990876 then some .Alberta
  else if n = 604427 then some .AmericanSamoa
  else if n = 636026 then some .Arizona
  else if n = 636021 then some .Arkansas
  else if n = 636028 then some .BritishColumbia
  else if n = 636014 then some .California
  else if n = 636056 then some .Coahuila
  else if n = 636020 then some .Colorado
  else if n = 636006 then some .Connecticut
  else if n = 636011 then some .Delaware
  else if n = 636043 then some .DistrictOfColumbia
  else if n = 636010 then some .Florida
  else if n = 636055 then some .Georgia
  else if n = 636019 then some .Guam
  else if n = 636047 then some .Hawaii
  else if n = 636057 then some .Hidalgo
  else if n = 636050 then some .Idaho
  else if n = 636035 then some .Illinois
  else if n = 636037 then some .Indiana
  else if n = 636018 then some .Iowa
  else if n = 636022 then some .Kansas
  else if n = 636046 then some .Kentucky
  else if n = 636007 then some .Louisiana
  else if n = 636041 then some .Maine
  else if n = 636048 then some .Manitoba
  else if n = 636003 then some .Maryland
  else if n = 636002 then some .Massachusetts
  else if n = 636032 then some .Michigan
  else if n = 636038 then some .Minnesota
  else if n = 636051 then some .Mississippi
  else if n = 636030 then some .Missouri
  else if n = 636008 then some .Montana
  else if n = 636054 then some .Nebraska
  else if n = 636049 then some .Nevada
  else if n = 636017 then some .NewBrunswick
  else if n = 636016 then some .Newfoundland
  else if n = 636039 then some .NewHampshire
  else if n = 636036 then some .NewJersey
  else if n = 636009 then some .NewMexico
  else if n = 636001 then some .NewYork
  else if n = 636004 then some .NorthCarolina
  else if n = 636034 then some .NorthDakota
  else if n = 604430 then some .NortherMariannaIslands
  else if n = 604434 then some .NorthwestTerritories
  else if n = 636013 then some .NovaScotia
  else if n = 604433 then some .Nunavut
  else if n = 636023 then some .Ohio
  else if n = 636058 then some .Oklahoma
  else if n = 636012 then some .Ontario
  else if n = 636029 then some .Oregon
  else if n = 636025 then some .Pennsylvania
  else if n = 604426 then some .PrinceEdwardIsland
  else if n = 604431 then some .PuertoRico
  else if n = 604428 then some .Quebec
  else if n = 636052 then some .RhodeIsland
  else if n = 636044 then some .Saskatchewan
  else if n = 636005 then some .SouthCarolina
  else if n = 636042 then some .SouthDakota
  else if n = 636027 then some .StateDepartment
  else if n = 636053 then some .Tennessee
  else if n = 636015 then some .Texas
  else if n = 636040 then some .Utah
  else if n = 636024 then some .Vermont
  else if n = 636000 then some .Virginia
  else if n = 636062 then some .VirginIslands
  else if n = 636045 then some .Washington
  else if n = 636061 then some .WestVirginia
  else if n = 636031 then some .Wisconsin
  else if n = 636060 then some .Wyoming
  else if n = 604429 then some .Yukon
  else none

/-- `IssuerIdentification::country` (src/data.rs 100–112). -/
def IssuerIdentification.country : IssuerIdentification → IssuerCountry
  | .PrinceEdwardIsland | .Quebec | .Yukon | .Alberta | .Nunavut
  | .NorthwestTerritories | .Ontario | .NovaScotia | .Newfoundland
  | .NewBrunswick | .BritishColumbia | .Saskatchewan | .Manitoba => .Canada
  | .Coahuila | .Hidalgo => .Mexico
  | _ => .UnitedStates

/-- `Data` (src/lib.rs 19–23).  The two `HashMap`s are modelled as association
lists in insertion order; lookup takes the last binding for a key, matching
`HashMap` insert-overwrites semantics. -/
structure Data : Type where
  header : Header
  subfiles : List (SubfileType × List (String × Option String))
deriving DecidableEq, Repr

/-- `HashMap::get` on the association-list model: the last binding wins. -/
def hmGet {α β : Type} [DecidableEq α] (l : List (α × β)) (k : α) : Option β :=
  match l with
  | [] => none
  | (k', v) :: rest =>
    match hmGet rest k with
    | some r => some r
    | none => if k = k' then some v else none

/-! ## Offset-guess heuristic (src/lib.rs 173–185)

`guess_offset` scans the payload with the regex-lite pattern
`(DL|ID)([\d\w]{3,8})(DL|ID|Z\w)([DZ][A-Z]{2})` (leftmost match, greedy
repetition with backtracking; `\w` is ASCII `[0-9A-Za-z_]` in regex-lite) and
takes the match's end minus 5 as the new offset. -/

/-- regex-lite ASCII `\w`. -/
def wordChar (c : Char) : Bool := isDigitB c || isAlphaB c || c = '_'

/-- Match group `(DL|ID)` at the head, returning the rest. -/
def reG1 (cs : List Char) : Option (List Char) :=
  if isLeadingSeg ['D', 'L'] cs then some (cs.drop 2)
  else if isLeadingSeg ['I', 'D'] cs then some (cs.drop 2)
  else none

/-- Match group `(DL|ID|Z\w)` at the head (the alternatives have pairwise
distinct first characters, so no backtracking is needed between them). -/
def reG3 (cs : List Char) : Option (List Char) :=
  if isLeadingSeg ['D', 'L'] cs then some (cs.drop 2)
  else if isLeadingSeg ['I', 'D'] cs then some (cs.drop 2)
  else
    match cs with
    | 'Z' :: c :: rest => if wordChar c then some rest else none
    | _ => none

/-- Match group `([DZ][A-Z]{2})` at the head. -/
def reG4 (cs : List Char) : Option (List Char) :=
  match cs with
  | a :: b :: c :: rest =>
    if (a = 'D' ∨ a = 'Z') ∧ (65 ≤ b.toNat ∧ b.toNat ≤ 90) ∧ (65 ≤ c.toNat ∧ c.toNat ≤ 90)
    then some rest else none
  | _ => none

/-- Match exactly `k` word characters at the head. -/
def reRep (k : Nat) (cs : List Char) : Option (List Char) :=
  if k ≤ cs.length ∧ (cs.take k).all wordChar then some (cs.drop k) else none

/-- Try the whole pattern anchored at the head; returns the number of
characters it consumes.  The `{3,8}` repetition is greedy: counts are tried
from 8 down to 3. -/
def reMatchAt (cs : List Char) : Option Nat := do
  let rest1 ← reG1 cs
  ([8, 7, 6, 5, 4, 3] : List Nat).firstM (fun k => do
    let rest2 ← reRep k rest1
    let rest3 ← reG3 rest2
    let rest4 ← reG4 rest3
    some (cs.length - rest4.length))

/-- `Regex::find`: leftmost match; returns the end index of the match. -/
def reFindEnd : Nat → List Char → Option Nat
  | idx, cs =>
    match reMatchAt cs with
    | some n => some (idx + n)
    | none =>
      match cs with
      | [] => none
      | _ :: rest => reFindEnd (idx + 1) rest

/-- `guess_offset` (src/lib.rs 173–185): `match.end() - 5` when the pattern
matches, otherwise the offset stays 0. -/
def guessOffset (start : List Char) : Nat :=
  match reFindEnd 0 start with
  | some e => e - 5
  | none => 0

/-! ## Header and designator grammar (src/lib.rs 112–216) -/

/-- `parse_subfile_designator` (src/lib.rs 162–216). -/
def parse_subfile_designator (input : List Char) (start : List Char)
    (issuer : Option IssuerIdentification) (version : Nat) :
    Option (List Char × SubfileDesignator) := do
  let (input1, tcs) ← takeP 2 input
  let subfile_type ←
    match SubfileType.fromStr tcs with
    | some t => some t
    | none => none
  match tagP ['a', 'b', 'a', 'c'] input1 with
  | some (input2, _garbage) =>
    some (input2, { subfile_type, offset := guessOffset start, length := start.length })
  | none => do
    let (input2, offset0) ← digit_4char input1
    let offset1 :=
      if version = 1 ∧ issuer = some IssuerIdentification.SouthCarolina ∧ offset0 = 30
      then offset0 - 1 else offset0
    let offset2 := if offset1 = 0 then guessOffset start else offset1
    let (input3, length) ← digit_4char input2
    some (input3, { subfile_type, offset := offset2, length })

/-- `parse_header` (src/lib.rs 112–160).  Returns the rest of the input
together with `start` (the payload from the compliance indicator onward) and
the parsed header, exactly as the source does. -/
def parse_header (input : List Char) : Option (List Char × (List Char × Header)) := do
  let (start, _) ← takeUntilP ['@'] input
  let (input1, _) ← tagP ['@'] start
  let (input2, _) ← multispace0P input1
  let (input3, _) ← takeUntilP ['A'] input2
  let (input4, _) ← alt2 (tagP "ANSI ".data) (tagP "AAMVA".data) input3
  let (input5, issuer_id) ← mapResP (mapParserP (takeP 6) digit1P) parseRadixU32 input4
  let issuer := IssuerIdentification.tryFrom issuer_id
  let (input6, version_number) ← digit_0_to_99 input5
  let (input7, jurisdiction_version_number) ←
    if version_number > 2 then
      (digit_0_to_99 input6).map (fun r => (r.1, some r.2))
    else
      some (input6, (none : Option Nat))
  let (input8, number_of_entries) ← digit_0_to_99 input7
  let (input9, subfile_designators) ←
    many0P (fun s => parse_subfile_designator s start issuer version_number) input8
  some (input9, (start,
    { issuer_id, version_number, jurisdiction_version_number, number_of_entries,
      subfile_designators }))

/-! ## Element grammar and subfile assembler (src/lib.rs 218–305) -/

/-- `parse_data_element` (src/lib.rs 260–286).  The source also computes an
expected id tag from `subfile_type` purely for a diagnostic log; the log has no
semantic effect and is omitted here. -/
def parse_data_element (input : List Char) (_subfile_type : SubfileType) :
    Option (List Char × DataElement) := do
  let (input1, id) ← mapParserP (takeP 3) alpha1P input
  let (input2, value) ← takeTillP (fun c => c = '\r' || c = '\n') input1
  let (input3, _) ← alt2 (takeP 1) eofP input2
  let trimmed := rustTrimL value
  let value : Option String :=
    if trimmed = "NONE".data ∨ trimmed = "unavl".data ∨ trimmed = [] then none
    else some (String.mk trimmed)
  some (input3, { id := String.mk id, value })

/-- `parse_data_elements` (src/lib.rs 218–258). -/
def parse_data_elements (input : List Char) (subfile : SubfileDesignator) :
    Option (List Char × List (String × Option String)) := do
  let (input1, _offset) ← takeP subfile.offset input
  let max_length := min subfile.length input1.length
  let (_input2, element_data0) ← takeP max_length input1
  let element_data ←
    match subfile.subfile_type with
    | SubfileType.DL | SubfileType.EN | SubfileType.ID =>
      (optP (tagP subfile.subfile_type.toStr) element_data0).map (fun r => r.1)
    | SubfileType.JurisdictionSpecific _ => some element_data0
  let (input3, elements) ←
    many0P (fun i => parse_data_element i subfile.subfile_type) element_data
  some (input3, elements.map (fun elem => (elem.id, elem.value.map rustTrim)))

/-- `parse_barcode` (src/lib.rs 288–305): parse the header, then assemble each
designated subfile, skipping (non-fatally) any whose assembly fails; successive
inserts into the subfile map are modelled by appending in iteration order. -/
def parse_barcode (input : List Char) : Option Data := do
  let (_trailing, (start, header)) ← parse_header input
  let subfiles := header.subfile_designators.foldl
    (fun acc designator =>
      match parse_data_elements start designator with
      | some (_rest, elements) => acc ++ [(designator.subfile_type, elements)]
      | none => acc) []
  some { header, subfiles }

/-! ## Dates (the subset of the `time` crate used by src/data.rs) -/

/-- A calendar date in ordinal form, as `time::Date` exposes it through
`to_ordinal_date` / `from_ordinal_date`. -/
structure RDate : Type where
  year : Int
  ordinal : Nat
deriving DecidableEq, Repr

/-- `time::util::is_leap_year`. -/
def isLeap (y : Int) : Bool := y % 4 = 0 && (y % 100 ≠ 0 || y % 400 = 0)

/-- Days in a year. -/
def daysInYear (y : Int) : Nat := if isLeap y then 366 else 365

/-- Days in month `m` (1-based) of year `y`. -/
def daysInMonth (y : Int) (m : Nat) : Nat :=
  if m = 2 then (if isLeap y then 29 else 28)
  else if m = 4 ∨ m = 6 ∨ m = 9 ∨ m = 11 then 30
  else 31

/-- Days in the year strictly before month `m` (1-based). -/
def daysBeforeMonth (y : Int) (m : Nat) : Nat :=
  (List.range (m - 1)).foldl (fun a i => a + daysInMonth y (i + 1)) 0

/-- `time::Date::from_ordinal_date`: checked construction.  The `time` crate's
default year range is −9999..=9999 and the ordinal must lie in
1..=days-in-year. -/
def fromOrdinalDate (year : Int) (ordinal : Nat) : Option RDate :=
  if -9999 ≤ year ∧ year ≤ 9999 ∧ 1 ≤ ordinal ∧ ordinal ≤ daysInYear year then
    some { year, ordinal }
  else none

/-- Checked month/day/year construction (`time::Date::from_calendar_date`),
converting to ordinal form. -/
def dateFromCalendar (year : Int) (month day : Nat) : Option RDate :=
  if -9999 ≤ year ∧ year ≤ 9999 ∧ 1 ≤ month ∧ month ≤ 12 ∧ 1 ≤ day ∧
      day ≤ daysInMonth year month then
    some { year, ordinal := daysBeforeMonth year month + day }
  else none

/-- Read exactly `n` decimal digits from the head of a token. -/
def fixedDigits (n : Nat) (cs : List Char) : Option (Nat × List Char) :=
  if n ≤ cs.length ∧ (cs.take n).all isDigitB then
    some (natOfDigits (cs.take n), cs.drop n)
  else none

/-- `time::Date::parse` with the `[month][day][year]` format description over
the 8-character token (each component a fixed-width digit run; the whole token
must be consumed). -/
def parseMDY (s : String) : Option RDate := do
  let (month, r1) ← fixedDigits 2 s.data
  let (day, r2) ← fixedDigits 2 r1
  let (year, r3) ← fixedDigits 4 r2
  if r3 = [] then dateFromCalendar (Int.ofNat year) month day else none

/-- `time::Date::parse` with the `[year][month][day]` format description. -/
def parseYMD (s : String) : Option RDate := do
  let (year, r1) ← fixedDigits 4 s.data
  let (month, r2) ← fixedDigits 2 r1
  let (day, r3) ← fixedDigits 2 r2
  if r3 = [] then dateFromCalendar (Int.ofNat year) month day else none

/-! ## Semantic decoder (src/data.rs 245–672): the fields the claims concern -/

/-- `Height` (src/data.rs 245–250). -/
inductive Height : Type where
  | Inches : Nat → Height
  | Centimeters : Nat → Height
deriving DecidableEq, Repr

/-- `UnderAgeUntil` (src/data.rs 272–280). -/
structure UnderAgeUntil : Type where
  under_18_until : Option RDate
  under_19_until : Option RDate
  under_21_until : Option RDate
deriving DecidableEq, Repr

/-- Result of running Rust code that may panic. -/
inductive PRes (α : Type) : Type where
  | panic : PRes α
  | ok : α → PRes α
deriving DecidableEq, Repr

/-- `Data::get_field` (src/data.rs 658–667): first present value for the id
across the DL, EN, ID subfiles, trimmed. -/
def Data.get_field (d : Data) (name : String) : Option String :=
  [SubfileType.DL, SubfileType.EN, SubfileType.ID].findSome?
    (fun subfile_type =>
      (hmGet d.subfiles subfile_type).bind
        (fun subfile => ((hmGet subfile name).bind id).map rustTrim))

/-- The issuer country used by `Data::date_field` (src/data.rs 585–587):
directory lookup, defaulting to the United States when the code is
unrecognized. -/
def issuerCountry (issuer_id : Nat) : IssuerCountry :=
  ((IssuerIdentification.tryFrom issuer_id).map IssuerIdentification.country).getD
    IssuerCountry.UnitedStates

/-- `Data::parse_date` (src/data.rs 594–616). -/
def Data.parse_date (d : Data) (input : String) (country : IssuerCountry) : Option RDate :=
  if input.length ≠ 8 then none
  else
    if country = IssuerCountry.UnitedStates ∧ d.header.version_number ≠ 1 then
      match parseMDY input with
      | none => parseYMD input
      | date => date
    else parseYMD input

/-- `Data::date_field` (src/data.rs 584–592). -/
def Data.date_field (d : Data) (name : String) : Option RDate :=
  match d.get_field name with
  | none => none
  | some field => d.parse_date field (issuerCountry d.header.issuer_id)

/-- `Data::date_of_birth` (src/data.rs 378–380). -/
def Data.date_of_birth (d : Data) : Option RDate := d.date_field "DBB"

/-- The closure `parse_hyphenated_ftin` inside `Data::height`
(src/data.rs 422–426); `feet * 12 + inches` is `u16` arithmetic. -/
def parseHyphenFtIn (feet inches : List Char) : Option Height :=
  let feet' := (stripSuffixL [Char.ofNat 39] feet).getD feet
  let inches' := (stripSuffixL [Char.ofNat 34] inches).getD inches
  (parseU16 feet').bind (fun f =>
    (parseU16 inches').map (fun i => Height.Inches ((f * 12 + i) % 2 ^ 16)))

/-- `Data::height` (src/data.rs 419–455).  The source slices `centimeters[..3]`
(resp. `inches[..3]`) without a length check, which panics when fewer than 3
characters remain after stripping the unit suffix; that panic is modelled by
`PRes.panic`. -/
def Data.height (d : Data) : PRes (Option Height) :=
  match d.get_field "DAU" with
  | none => .ok none
  | some dau =>
    let height := (asciiLower dau).data
    match stripSuffixL " cm".data height with
    | some centimeters =>
      if centimeters.length < 3 then .panic
      else
        match parseU16 (centimeters.take 3) with
        | none => .ok none
        | some v => .ok (some (Height.Centimeters v))
    | none =>
      match stripSuffixL " in".data height with
      | some inches =>
        if inches.length < 3 then .panic
        else
          match parseU16 (inches.take 3) with
          | none => .ok none
          | some v => .ok (some (Height.Inches v))
      | none =>
        if height.length = 3 then
          match parseU16 (height.take 1), parseU16 (height.drop 1) with
          | some feet, some inches => .ok (some (Height.Inches ((feet * 12 + inches) % 2 ^ 16)))
          | _, _ => .ok none
        else
          match splitOnceL '-' height with
          | some (feet, inches) => .ok (parseHyphenFtIn feet inches)
          | none =>
            match d.get_field "DAV" with
            | some centimeters => .ok ((parseU16 centimeters.data).map Height.Centimeters)
            | none =>
              match (hmGet d.subfiles (SubfileType.JurisdictionSpecific 'I')).bind
                  (fun subfile => hmGet subfile "ZIJ") with
              | some (some zij) =>
                match splitOnceL '-' zij.data with
                | some (feet, inches) => .ok (parseHyphenFtIn feet inches)
                | none => .ok none
              | _ => .ok none

/-- `Data::country` (src/data.rs 475–493). -/
def Data.country (d : Data) : PRes (Option IssuerCountry) :=
  match (d.get_field "DCG").map asciiUpper with
  | some s =>
    if s = "USA" then .ok (some IssuerCountry.UnitedStates)
    else if s = "CAN" then .ok (some IssuerCountry.Canada)
    else if s = "MEX" then .ok (some IssuerCountry.Mexico)
    else .ok none
  | none =>
    match d.height with
    | .panic => .panic
    | .ok (some (Height.Inches _)) => .ok (some IssuerCountry.UnitedStates)
    | .ok (some (Height.Centimeters _)) => .ok (some IssuerCountry.Canada)
    | .ok none => .ok none

/-- `Data::under_n_until` (src/data.rs 627–656). -/
def Data.under_n_until (d : Data) (name : String) (age : Int) : Option RDate :=
  match d.date_field name with
  | some date => some date
  | none =>
    match d.date_of_birth with
    | none => none
    | some birth =>
      let future_year := birth.year + age
      let day_of_year :=
        if birth.ordinal > 60 then
          match isLeap birth.year, isLeap future_year with
          | true, true | false, false => birth.ordinal
          | true, false => birth.ordinal - 1
          | false, true => birth.ordinal + 1
        else birth.ordinal
      fromOrdinalDate future_year day_of_year

/-- `Data::under_age_until` (src/data.rs 576–582). -/
def Data.under_age_until (d : Data) : UnderAgeUntil :=
  { under_18_until := d.under_n_until "DDH" 18
    under_19_until := d.under_n_until "DDH" 19
    under_21_until := d.under_n_until "DDH" 21 }

/-! ## Concrete instances used by the witnesses and counterexamples -/

/-- The documented example header payload (src/lib.rs 394). -/
def payloadC9 : List Char := "@\n\x1e\rAAMVA6360000102DL00390188ZV02270031ANSI ".data

/-- A version-4 United States header (issuer 636000 is Virginia). -/
def hdrUSv4 : Header := ⟨636000, 4, none, 1, []⟩

/-- A `Data` whose DL subfile carries a DAU element that keeps fewer than 3
characters after the `" cm"` suffix is stripped. -/
def dataShortCm : Data := ⟨hdrUSv4, [(SubfileType.DL, [("DAU", some "1 cm")])]⟩

/-- A `Data` with a date of birth of March 10, 2000 (day-of-year 70 of a leap
year) and no DDH element. -/
def dataDob : Data := ⟨hdrUSv4, [(SubfileType.DL, [("DBB", some "03102000")])]⟩

/-- A `Data` with an explicit DDH age-threshold element. -/
def dataDdh : Data := ⟨hdrUSv4, [(SubfileType.DL, [("DDH", some "20390310")])]⟩

/-- A `Data` with an explicit lowercase country element. -/
def dataDcg : Data := ⟨hdrUSv4, [(SubfileType.DL, [("DCG", some "usa")])]⟩

/-! ## Helper lemmas -/

/-- An ASCII digit's value is at most 9. -/
theorem digitVal_le_nine {c : Char} (h : isDigitB c = true) : digitVal c ≤ 9 := by
  simp [isDigitB] at h
  simp only [digitVal]
  omega

/-- Accumulator bound for `natOfDigits`. -/
theorem natOfDigits_foldl_lt (l : List Char) :
    ∀ a : Nat, l.all isDigitB = true →
      l.foldl (fun a c => 10 * a + digitVal c) a < (a + 1) * 10 ^ l.length := by
  induction l with
  | nil => intro a _; simp
  | cons c t ih =>
    intro a h
    simp only [List.all_cons, Bool.and_eq_true] at h
    obtain ⟨hc, ht⟩ := h
    have hv : digitVal c ≤ 9 := digitVal_le_nine hc
    calc (c :: t).foldl (fun a c => 10 * a + digitVal c) a
        = t.foldl (fun a c => 10 * a + digitVal c) (10 * a + digitVal c) := by
          simp [List.foldl_cons]
      _ < (10 * a + digitVal c + 1) * 10 ^ t.length := ih _ ht
      _ ≤ ((a + 1) * 10) * 10 ^ t.length := Nat.mul_le_mul_right _ (by omega)
      _ = (a + 1) * 10 ^ (c :: t).length := by
          simp [List.length_cons, pow_succ]; ring

/-- A run of digits has value below `10 ^ length`. -/
theorem natOfDigits_lt (l : List Char) (h : l.all isDigitB = true) :
    natOfDigits l < 10 ^ l.length := by
  simpa [natOfDigits] using natOfDigits_foldl_lt l 0 h

/-- `many0` never fails when the embedded parser consumes input on success. -/
theorem many0Go_isSome {α : Type} (p : PM α)
    (hp : ∀ inp r a, p inp = some (r, a) → r.length < inp.length) :
    ∀ fuel inp, (many0Go p fuel inp).isSome = true := by
  intro fuel
  induction fuel with
  | zero => intro inp; rfl
  | succ n ih =>
    intro inp
    simp only [many0Go]
    cases hpi : p inp with
    | none => rfl
    | some ra =>
      obtain ⟨r, a⟩ := ra
      dsimp only
      rw [if_pos (hp inp r a hpi)]
      obtain ⟨x, hx⟩ := Option.isSome_iff_exists.mp (ih r)
      simp [hx]

/-- `many0P` never fails when the embedded parser consumes input on success. -/
theorem many0P_isSome {α : Type} (p : PM α)
    (hp : ∀ inp r a, p inp = some (r, a) → r.length < inp.length) (input : List Char) :
    (many0P p input).isSome = true :=
  many0Go_isSome p hp (input.length + 1) input

/-- `parse_data_element` consumes at least the 3-character id window. -/
theorem parse_data_element_progress (t : SubfileType) (inp r : List Char) (e : DataElement)
    (h : parse_data_element inp t = some (r, e)) : r.length < inp.length := by
  by_cases h3 : 3 ≤ inp.length
  · by_cases ha : List.takeWhile isAlphaB (List.take 3 inp) = []
    · simp [parse_data_element, mapParserP, takeP, alpha1P, h3, ha, bind, Option.bind] at h
    · cases hd : List.dropWhile (fun c => !(c = '\r') && !(c = '\n') : Char → Bool)
          (List.drop 3 inp) with
      | nil =>
        simp [parse_data_element, mapParserP, takeP, alpha1P, takeTillP, alt2, eofP, h3, ha, hd,
          bind, Option.bind] at h
        obtain ⟨hr, -⟩ := h
        subst hr
        simp
        omega
      | cons c cs =>
        have h1 : (List.dropWhile (fun c => !(c = '\r') && !(c = '\n') : Char → Bool)
            (List.drop 3 inp)).length ≤ (List.drop 3 inp).length :=
          (List.dropWhile_suffix _).length_le
        rw [hd] at h1
        simp only [List.length_cons, List.length_drop] at h1
        simp [parse_data_element, mapParserP, takeP, alpha1P, takeTillP, alt2, eofP, h3, ha, hd,
          bind, Option.bind] at h
        obtain ⟨hr, -⟩ := h
        subst hr
        omega
  · simp [parse_data_element, mapParserP, takeP, h3, bind, Option.bind] at h

/-- `opt(p)` always succeeds, wrapping `p`'s outcome. -/
theorem optP_eq {α : Type} (p : PM α) (inp : List Char) :
    optP p inp = some (match p inp with | some (r, a) => (r, some a) | none => (inp, none)) := by
  simp only [optP]
  cases p inp with
  | none => rfl
  | some ra => obtain ⟨r, a⟩ := ra; rfl

/-- Element collection never fails. -/
theorem many0_pde_isSome (st : SubfileType) (ed : List Char) :
    (many0P (fun i => parse_data_element i st) ed).isSome = true :=
  many0P_isSome _ (fun inp r a hh => parse_data_element_progress st inp r a hh) ed

/-- Element collection never returns `none`. -/
theorem many0_pde_ne_none (st : SubfileType) (ed : List Char)
    (h : many0P (fun i => parse_data_element i st) ed = none) : False := by
  have h2 := many0_pde_isSome st ed
  rw [h] at h2
  simp at h2

/-- C3 (counterexample): with an offset beyond the end of the payload, the
subfile assembler fails (returns a parse error) instead of returning a clamped
element map, refuting the claim at a concrete input. -/
theorem subfile_offset_beyond_input_fails :
    parse_data_elements [] ⟨SubfileType.DL, 5, 1⟩ = none := by decide

/-- C3 (amended): whenever the subfile's offset is within the payload, the
assembler never fails, and its result is exactly that of the designator whose
length has been clamped to the available bytes; only an offset alone past the
end of the payload makes the assembler fail (non-fatally for the whole
decode). -/
theorem subfile_window_clamped_when_offset_in_range (input : List Char)
    (sd : SubfileDesignator) (h : sd.offset ≤ input.length) :
    (parse_data_elements input sd).isSome = true ∧
    parse_data_elements input sd =
      parse_data_elements input
        ⟨sd.subfile_type, sd.offset, min sd.length (input.length - sd.offset)⟩ := by
  obtain ⟨st, off, len⟩ := sd
  simp only at h
  have hdrop : (List.drop off input).length = input.length - off := List.length_drop off input
  have hm1 : min len (List.drop off input).length ≤ (List.drop off input).length :=
    Nat.min_le_right _ _
  have hmm : min (min len (input.length - off)) (List.drop off input).length
      = min len (List.drop off input).length := by rw [hdrop]; omega
  constructor
  · simp only [parse_data_elements, bind, Option.bind, takeP, if_pos h]
    rw [if_pos hm1]
    cases st
    all_goals simp only [optP_eq, Option.map_some']
    all_goals split
    all_goals first
      | rfl
      | (rename_i heq; exact (many0_pde_ne_none _ _ heq).elim)
  · simp only [parse_data_elements, bind, Option.bind, takeP, if_pos h]
    rw [hmm]

/-- C3 (witness): the clamping equation evaluated at a designator whose
declared length of 100 exceeds the 7 remaining characters. -/
theorem subfile_window_clamped_witness :
    (parse_data_elements "XYZDAAJOHN".data ⟨SubfileType.DL, 3, 100⟩).isSome = true ∧
    parse_data_elements "XYZDAAJOHN".data ⟨SubfileType.DL, 3, 100⟩ =
      parse_data_elements "XYZDAAJOHN".data
        ⟨SubfileType.DL, 3, min 100 ("XYZDAAJOHN".data.length - 3)⟩ :=
  subfile_window_clamped_when_offset_in_range "XYZDAAJOHN".data ⟨SubfileType.DL, 3, 100⟩
    (by decide)

/-- A digit run obtained by `takeWhile` is all digits. -/
theorem takeWhile_digits_all (l : List Char) :
    (l.takeWhile isDigitB).all isDigitB = true := by
  simp only [List.all_eq_true]
  intro x hx
  exact List.mem_takeWhile_imp hx

/-- `u8::from_str_radix` succeeds on the digit run of a window of width at
most 2. -/
theorem parseRadixU8_takeWhile (l : List Char) (hlen : l.length ≤ 2)
    (hne : l.takeWhile isDigitB ≠ []) :
    parseRadixU8 (l.takeWhile isDigitB) = some (natOfDigits (l.takeWhile isDigitB)) := by
  have hall := takeWhile_digits_all l
  have hl2 : (l.takeWhile isDigitB).length ≤ 2 :=
    le_trans (List.takeWhile_prefix _).length_le hlen
  have hlt : natOfDigits (l.takeWhile isDigitB) < 2 ^ 8 :=
    lt_of_lt_of_le (natOfDigits_lt _ hall)
      (le_trans (Nat.pow_le_pow_right (by norm_num) hl2) (by norm_num))
  norm_num at hlt
  simp [parseRadixU8, hne, hall, hlt]

/-- `u32::from_str_radix` succeeds on the digit run of a window of width at
most 6. -/
theorem parseRadixU32_takeWhile (l : List Char) (hlen : l.length ≤ 6)
    (hne : l.takeWhile isDigitB ≠ []) :
    parseRadixU32 (l.takeWhile isDigitB) = some (natOfDigits (l.takeWhile isDigitB)) := by
  have hall := takeWhile_digits_all l
  have hl6 : (l.takeWhile isDigitB).length ≤ 6 :=
    le_trans (List.takeWhile_prefix _).length_le hlen
  have hlt : natOfDigits (l.takeWhile isDigitB) < 2 ^ 32 :=
    lt_of_lt_of_le (natOfDigits_lt _ hall)
      (le_trans (Nat.pow_le_pow_right (by norm_num) hl6) (by norm_num))
  norm_num at hlt
  simp [parseRadixU32, hne, hall, hlt]

/-- C2 (counterexample): the 2-digit token parser ACCEPTS a window whose second
character is not a digit, returning the value of the leading digit alone, so a
non-digit inside the fixed width does not fail the token's parse. -/
theorem digit_token_accepts_trailing_nondigit :
    digit_0_to_99 ['1', 'a'] = some ([], 1) := by decide

/-- C2 (amended): every fixed-width numeric token of the header grammar — the
2-digit tokens (`digit_0_to_99`), the 4-digit offset/length tokens
(`digit_4char`), and the 6-digit issuer identification number token (the
`map_res(map_parser(take(6), digit1), u32)` combinator inlined in
`parse_header`) — fails exactly when its window does not start with a decimal
digit; when it does start with one, the parse succeeds, consumes the whole
fixed-width window, and takes its value from the maximal leading digit run of
the window, silently skipping any later non-digit characters inside the
window. -/
theorem fixed_width_numeric_token_rule (c1 c2 : Char) (rest : List Char) :
    (isDigitB c1 = false → digit_0_to_99 (c1 :: c2 :: rest) = none ∧
      (∀ c3 c4, digit_4char (c1 :: c2 :: c3 :: c4 :: rest) = none) ∧
      (∀ c3 c4 c5 c6, mapResP (mapParserP (takeP 6) digit1P) parseRadixU32
        (c1 :: c2 :: c3 :: c4 :: c5 :: c6 :: rest) = none)) ∧
    (isDigitB c1 = true →
      digit_0_to_99 (c1 :: c2 :: rest) =
        some (rest, natOfDigits (List.takeWhile isDigitB [c1, c2])) ∧
      (∀ c3 c4, digit_4char (c1 :: c2 :: c3 :: c4 :: rest) =
        some (rest, natOfDigits (List.takeWhile isDigitB [c1, c2, c3, c4]))) ∧
      (∀ c3 c4 c5 c6, mapResP (mapParserP (takeP 6) digit1P) parseRadixU32
          (c1 :: c2 :: c3 :: c4 :: c5 :: c6 :: rest) =
        some (rest, natOfDigits (List.takeWhile isDigitB [c1, c2, c3, c4, c5, c6])))) := by
  constructor
  · intro hc
    refine ⟨?_, ?_, ?_⟩
    · simp [digit_0_to_99, mapResP, mapParserP, takeP, digit1P, List.takeWhile_cons, hc]
    · intro c3 c4
      simp [digit_4char, mapResP, mapParserP, takeP, digit1P, List.takeWhile_cons, hc]
    · intro c3 c4 c5 c6
      simp [mapResP, mapParserP, takeP, digit1P, List.takeWhile_cons, hc]
  · intro hc
    have hne2 : List.takeWhile isDigitB [c1, c2] ≠ [] := by
      simp [List.takeWhile_cons, hc]
    refine ⟨?_, ?_, ?_⟩
    · have hr := parseRadixU8_takeWhile [c1, c2] (by simp) hne2
      have h1 : takeP 2 (c1 :: c2 :: rest) = some (rest, [c1, c2]) := by simp [takeP]
      have h2 : digit1P [c1, c2]
          = some (List.dropWhile isDigitB [c1, c2], List.takeWhile isDigitB [c1, c2]) := by
        simp only [digit1P, if_neg hne2]
      have h3 : mapParserP (takeP 2) digit1P (c1 :: c2 :: rest)
          = some (rest, List.takeWhile isDigitB [c1, c2]) := by
        simp only [mapParserP, h1, h2]
      simp only [digit_0_to_99, mapResP, h3, hr]
    · intro c3 c4
      have hne4 : List.takeWhile isDigitB [c1, c2, c3, c4] ≠ [] := by
        simp [List.takeWhile_cons, hc]
      have hr := parseRadixU32_takeWhile [c1, c2, c3, c4] (by simp) hne4
      have h1 : takeP 4 (c1 :: c2 :: c3 :: c4 :: rest) = some (rest, [c1, c2, c3, c4]) := by
        simp [takeP]
      have h2 : digit1P [c1, c2, c3, c4]
          = some (List.dropWhile isDigitB [c1, c2, c3, c4],
              List.takeWhile isDigitB [c1, c2, c3, c4]) := by
        simp only [digit1P, if_neg hne4]
      have h3 : mapParserP (takeP 4) digit1P (c1 :: c2 :: c3 :: c4 :: rest)
          = some (rest, List.takeWhile isDigitB [c1, c2, c3, c4]) := by
        simp only [mapParserP, h1, h2]
      simp only [digit_4char, mapResP, h3, hr]
    · intro c3 c4 c5 c6
      have hne6 : List.takeWhile isDigitB [c1, c2, c3, c4, c5, c6] ≠ [] := by
        simp [List.takeWhile_cons, hc]
      have hr := parseRadixU32_takeWhile [c1, c2, c3, c4, c5, c6] (by simp) hne6
      have h1 : takeP 6 (c1 :: c2 :: c3 :: c4 :: c5 :: c6 :: rest)
          = some (rest, [c1, c2, c3, c4, c5, c6]) := by simp [takeP]
      have h2 : digit1P [c1, c2, c3, c4, c5, c6]
          = some (List.dropWhile isDigitB [c1, c2, c3, c4, c5, c6],
              List.takeWhile isDigitB [c1, c2, c3, c4, c5, c6]) := by
        simp only [digit1P, if_neg hne6]
      have h3 : mapParserP (takeP 6) digit1P (c1 :: c2 :: c3 :: c4 :: c5 :: c6 :: rest)
          = some (rest, List.takeWhile isDigitB [c1, c2, c3, c4, c5, c6]) := by
        simp only [mapParserP, h1, h2]
      simp only [mapResP, h3, hr]

/-- C2 (witness): the token rule evaluated at the all-digit window "39", at
the mixed window "1a2b" (whose 4-character form yields the leading run's
value 1), and at the 6-character issuer window "63600a". -/
theorem fixed_width_numeric_token_rule_witness :
    digit_0_to_99 ['3', '9'] = some ([], natOfDigits (List.takeWhile isDigitB ['3', '9'])) ∧
    digit_4char ['1', 'a', '2', 'b'] =
      some ([], natOfDigits (List.takeWhile isDigitB ['1', 'a', '2', 'b'])) ∧
    mapResP (mapParserP (takeP 6) digit1P) parseRadixU32 ['6', '3', '6', '0', '0', 'a'] =
      some ([], natOfDigits (List.takeWhile isDigitB ['6', '3', '6', '0', '0', 'a'])) :=
  ⟨((fixed_width_numeric_token_rule '3' '9' []).2 (by decide)).1,
   ((fixed_width_numeric_token_rule '1' 'a' []).2 (by decide)).2.1 '2' 'b',
   ((fixed_width_numeric_token_rule '6' '3' []).2 (by decide)).2.2 '6' '0' '0' 'a'⟩

/-- C4 (counterexample): a 3-character id window that is NOT all alphabetic
("DA1") is accepted by the element grammar — it consumes the 3 characters and
records the 2-character id "DA" — rather than failing the subfile parse. -/
theorem element_id_nonalpha_window_accepted :
    parse_data_element "DA1AAA".data SubfileType.DL =
      some ([], { id := "DA", value := some "AAA" }) := by decide

/-- C4 (amended): the element grammar consumes exactly 3 characters per id but
requires only that the first be alphabetic, recording the maximal leading
alphabetic run of the window as the id; a window whose first character is
non-alphabetic fails only that element, which ends the subfile's element
collection non-fatally — the collection returns the elements gathered so far
instead of failing the subfile parse. -/
theorem element_id_leading_alpha_rule (t : SubfileType) (c1 c2 c3 : Char) (rest : List Char) :
    (isAlphaB c1 = false →
      parse_data_element (c1 :: c2 :: c3 :: rest) t = none ∧
      many0P (fun i => parse_data_element i t) (c1 :: c2 :: c3 :: rest) =
        some (c1 :: c2 :: c3 :: rest, [])) ∧
    (isAlphaB c1 = true →
      ∃ r e, parse_data_element (c1 :: c2 :: c3 :: rest) t = some (r, e) ∧
        e.id = String.mk (List.takeWhile isAlphaB [c1, c2, c3])) := by
  constructor
  · intro hc
    have hpde : parse_data_element (c1 :: c2 :: c3 :: rest) t = none := by
      simp [parse_data_element, mapParserP, takeP, alpha1P, List.takeWhile_cons, hc,
        bind, Option.bind]
    refine ⟨hpde, ?_⟩
    simp [many0P, many0Go, hpde]
  · intro hc
    have hna : List.takeWhile isAlphaB (List.take 3 (c1 :: c2 :: c3 :: rest)) ≠ [] := by
      simp [List.takeWhile_cons, hc]
    cases hd : List.dropWhile (fun c => !(c = '\r') && !(c = '\n') : Char → Bool) rest with
    | nil =>
      refine ⟨[], ⟨String.mk (List.takeWhile isAlphaB [c1, c2, c3]), ?_⟩, ?_, rfl⟩
      · exact
          (if rustTrimL (List.takeWhile (fun c => !(c = '\r') && !(c = '\n') : Char → Bool)
                rest) = "NONE".data ∨
              rustTrimL (List.takeWhile (fun c => !(c = '\r') && !(c = '\n') : Char → Bool)
                rest) = "unavl".data ∨
              rustTrimL (List.takeWhile (fun c => !(c = '\r') && !(c = '\n') : Char → Bool)
                rest) = []
           then none
           else some (String.mk (rustTrimL (List.takeWhile
             (fun c => !(c = '\r') && !(c = '\n') : Char → Bool) rest))))
      · simp [parse_data_element, mapParserP, takeP, alpha1P, takeTillP, alt2, eofP, hc, hna,
          hd, bind, Option.bind]
    | cons c cs =>
      refine ⟨cs, ⟨String.mk (List.takeWhile isAlphaB [c1, c2, c3]), ?_⟩, ?_, rfl⟩
      · exact
          (if rustTrimL (List.takeWhile (fun c => !(c = '\r') && !(c = '\n') : Char → Bool)
                rest) = "NONE".data ∨
              rustTrimL (List.takeWhile (fun c => !(c = '\r') && !(c = '\n') : Char → Bool)
                rest) = "unavl".data ∨
              rustTrimL (List.takeWhile (fun c => !(c = '\r') && !(c = '\n') : Char → Bool)
                rest) = []
           then none
           else some (String.mk (rustTrimL (List.takeWhile
             (fun c => !(c = '\r') && !(c = '\n') : Char → Bool) rest))))
      · simp [parse_data_element, mapParserP, takeP, alpha1P, takeTillP, alt2, eofP, hc, hna,
          hd, bind, Option.bind]

/-- C4 (witness): a window starting with a non-alphabetic character fails only
that element, and collection returns the empty list non-fatally. -/
theorem element_id_leading_alpha_rule_witness :
    parse_data_element ('1' :: 'A' :: 'B' :: []) SubfileType.DL = none ∧
    many0P (fun i => parse_data_element i SubfileType.DL) ('1' :: 'A' :: 'B' :: []) =
      some ('1' :: 'A' :: 'B' :: [], []) :=
  (element_id_leading_alpha_rule SubfileType.DL '1' 'A' 'B' []).1 (by decide)

/-- C5 (counterexample): a trimmed value that equals "NONE" only up to case
("none") is recorded as PRESENT, refuting the case-insensitive comparison the
claim describes. -/
theorem element_value_none_is_case_sensitive :
    parse_data_element "DBAnone".data SubfileType.DL =
      some ([], { id := "DBA", value := some "none" }) := by decide

/-- C5 (amended): the captured value is trimmed, and the trimmed value is
recorded as absent exactly when it equals the literal "NONE" or "unavl"
case-SENSITIVELY, or is empty; any other trimmed value (including other
casings of those placeholders) is recorded as present. -/
theorem element_value_absence_rule (t : SubfileType) (c1 c2 c3 : Char) (vcs : List Char)
    (hc : isAlphaB c1 = true)
    (hv : ∀ c ∈ vcs, (c = '\r' || c = '\n' : Bool) = false) :
    parse_data_element (c1 :: c2 :: c3 :: vcs) t =
      some ([], { id := String.mk (List.takeWhile isAlphaB [c1, c2, c3]),
                  value :=
                    if rustTrimL vcs = "NONE".data ∨ rustTrimL vcs = "unavl".data ∨
                        rustTrimL vcs = []
                    then none else some (String.mk (rustTrimL vcs)) }) := by
  have hna : List.takeWhile isAlphaB (List.take 3 (c1 :: c2 :: c3 :: vcs)) ≠ [] := by
    simp [List.takeWhile_cons, hc]
  have hq : ∀ c ∈ vcs, (!(c = '\r') && !(c = '\n') : Bool) = true := by
    intro c hcm
    have := hv c hcm
    simp only [Bool.or_eq_false_iff] at this
    simp [this.1, this.2]
  have hdrop : List.dropWhile (fun c => !(c = '\r') && !(c = '\n') : Char → Bool) vcs = [] :=
    List.dropWhile_eq_nil_iff.mpr hq
  have htake : List.takeWhile (fun c => !(c = '\r') && !(c = '\n') : Char → Bool) vcs = vcs :=
    List.takeWhile_eq_self_iff.mpr hq
  simp [parse_data_element, mapParserP, takeP, alpha1P, takeTillP, alt2, eofP, hc, hna,
    hdrop, htake, bind, Option.bind]

/-- C5 (witness): the absence rule evaluated on an exact "NONE" value, which is
recorded as absent. -/
theorem element_value_absence_rule_witness :
    parse_data_element ('D' :: 'A' :: 'B' :: "NONE".data) SubfileType.DL =
      some ([], { id := "DAB", value := none }) := by
  rw [element_value_absence_rule SubfileType.DL 'D' 'A' 'B' "NONE".data (by decide) (by decide)]
  decide

/-- C1: the claim (and the spec) require every field decoder to return absent
rather than any hard failure, but `Data::height` slices the first 3 characters
of the remainder after stripping a `" cm"` suffix without a length check, so a
DAU element such as "1 cm" makes the decoder panic instead of returning
absent.  This theorem evaluates the embedded decoder at that failing input. -/
theorem height_short_unit_value_panics :
    Data.height dataShortCm = PRes.panic := by decide

/-- C9: parsing the documented example payload yields a header with issuer id
636000, standard version 1, no jurisdiction version, entry count 2, and the
two subfile designators (DL, 39, 188) and (jurisdiction-specific V, 227, 31),
in that order. -/
theorem parse_header_documented_example :
    parse_header payloadC9 =
      some ("ANSI ".data, (payloadC9,
        { issuer_id := 636000, version_number := 1, jurisdiction_version_number := none,
          number_of_entries := 2,
          subfile_designators :=
            [⟨SubfileType.DL, 39, 188⟩, ⟨SubfileType.JurisdictionSpecific 'V', 227, 31⟩] })) := by
  decide

/-- C6: a date field decodes only from an exactly-8-character token (otherwise
absent); for a United States issuer at standard version ≠ 1 the month-day-year
format is tried first with a year-month-day fallback, and in every other case
only year-month-day is tried; the issuer country is looked up from the issuer
identification number and defaults to the United States for unknown codes. -/
theorem date_field_format_selection (d : Data) (name : String) :
    (Data.get_field d name = none → Data.date_field d name = none) ∧
    (∀ s, Data.get_field d name = some s → s.length ≠ 8 → Data.date_field d name = none) ∧
    (∀ s, Data.get_field d name = some s → s.length = 8 →
      Data.date_field d name =
        (if issuerCountry d.header.issuer_id = IssuerCountry.UnitedStates ∧
            d.header.version_number ≠ 1
         then match parseMDY s with
              | none => parseYMD s
              | date => date
         else parseYMD s)) ∧
    (∀ n, IssuerIdentification.tryFrom n = none →
      issuerCountry n = IssuerCountry.UnitedStates) := by
  refine ⟨?_, ?_, ?_, ?_⟩
  · intro h
    simp [Data.date_field, h]
  · intro s hs hlen
    simp [Data.date_field, hs, Data.parse_date, hlen]
  · intro s hs hlen
    simp [Data.date_field, hs, Data.parse_date, hlen]
  · intro n hn
    simp [issuerCountry, hn]

/-- C6 (witness): the format-selection rule evaluated on a US version-4 header
and DBB token "03102000", which month-day-year parsing reads as March 10,
2000 (day-of-year 70). -/
theorem date_field_format_selection_witness :
    Data.date_field dataDob "DBB" = some ⟨2000, 70⟩ := by
  have h := (date_field_format_selection dataDob "DBB").2.2.1 "03102000" (by decide) (by decide)
  rw [h]
  decide

/-- C7: an explicit DCG country code of USA/CAN/MEX (after ASCII uppercasing)
decodes to the corresponding country, any other explicit code yields absent
without falling back to inference, and when DCG is absent the country is
inferred from the decoded height unit (inches → United States, centimeters →
Canada), being absent when height decodes to nothing. -/
theorem country_explicit_beats_inference (d : Data) :
    (∀ v, Data.get_field d "DCG" = some v →
      (asciiUpper v = "USA" → Data.country d = PRes.ok (some IssuerCountry.UnitedStates)) ∧
      (asciiUpper v = "CAN" → Data.country d = PRes.ok (some IssuerCountry.Canada)) ∧
      (asciiUpper v = "MEX" → Data.country d = PRes.ok (some IssuerCountry.Mexico)) ∧
      (asciiUpper v ≠ "USA" → asciiUpper v ≠ "CAN" → asciiUpper v ≠ "MEX" →
        Data.country d = PRes.ok none)) ∧
    (Data.get_field d "DCG" = none →
      (∀ n, Data.height d = PRes.ok (some (Height.Inches n)) →
        Data.country d = PRes.ok (some IssuerCountry.UnitedStates)) ∧
      (∀ n, Data.height d = PRes.ok (some (Height.Centimeters n)) →
        Data.country d = PRes.ok (some IssuerCountry.Canada)) ∧
      (Data.height d = PRes.ok none → Data.country d = PRes.ok none)) := by
  constructor
  · intro v hv
    refine ⟨?_, ?_, ?_, ?_⟩ <;> intro h1 <;> try intro h2 h3
    · simp [Data.country, hv, h1]
    · simp [Data.country, hv, h1]
    · simp [Data.country, hv, h1]
    · simp [Data.country, hv, h1, h2, h3]
  · intro hnone
    refine ⟨?_, ?_, ?_⟩
    · intro n hh
      simp [Data.country, hnone, hh]
    · intro n hh
      simp [Data.country, hnone, hh]
    · intro hh
      simp [Data.country, hnone, hh]

/-- C7 (witness): an explicit lowercase "usa" code uppercases to "USA" and
decodes to the United States. -/
theorem country_explicit_beats_inference_witness :
    Data.country dataDcg = PRes.ok (some IssuerCountry.UnitedStates) :=
  ((country_explicit_beats_inference dataDcg).1 "usa" (by decide)).1 (by decide)

/-- C8: with no explicit DDH element and a decodable date of birth past
day-of-year 60, the computed threshold preserves the birth day-of-year
adjusted by −1 when only the birth year is a leap year, by +1 when only the
target year is, and not at all when the two agree; in particular a leap-year
birth at day-of-year 70 whose 18-year target is not a leap year yields
day-of-year 69 of the target year. -/
theorem under_age_leap_year_adjustment (d : Data) (n : Int) (b : RDate)
    (hddh : Data.get_field d "DDH" = none)
    (hdob : Data.date_of_birth d = some b)
    (hord : 60 < b.ordinal) :
    (isLeap b.year = true ∧ isLeap (b.year + n) = false →
      Data.under_n_until d "DDH" n = fromOrdinalDate (b.year + n) (b.ordinal - 1)) ∧
    (isLeap b.year = false ∧ isLeap (b.year + n) = true →
      Data.under_n_until d "DDH" n = fromOrdinalDate (b.year + n) (b.ordinal + 1)) ∧
    (isLeap b.year = isLeap (b.year + n) →
      Data.under_n_until d "DDH" n = fromOrdinalDate (b.year + n) b.ordinal) ∧
    (b.ordinal = 70 → isLeap b.year = true → isLeap (b.year + 18) = false →
      -9999 ≤ b.year + 18 → b.year + 18 ≤ 9999 →
      Data.under_n_until d "DDH" 18 = some ⟨b.year + 18, 69⟩) := by
  have hdf : Data.date_field d "DDH" = none := by simp [Data.date_field, hddh]
  refine ⟨?_, ?_, ?_, ?_⟩
  · rintro ⟨h1, h2⟩
    simp [Data.under_n_until, hdf, hdob, hord, h1, h2]
  · rintro ⟨h1, h2⟩
    simp [Data.under_n_until, hdf, hdob, hord, h1, h2]
  · intro h1
    cases hl : isLeap b.year with
    | true => simp [Data.under_n_until, hdf, hdob, hord, hl, h1 ▸ hl]
    | false => simp [Data.under_n_until, hdf, hdob, hord, hl, h1 ▸ hl]
  · intro h70 h1 h2 h3 h4
    have hu : Data.under_n_until d "DDH" 18 = fromOrdinalDate (b.year + 18) (b.ordinal - 1) := by
      simp [Data.under_n_until, hdf, hdob, hord, h1, h2]
    rw [hu, h70]
    have h69 : (69 : Nat) ≤ daysInYear (b.year + 18) := by
      simp [daysInYear, h2]
    simp [fromOrdinalDate, h3, h4, h69]

/-- C8 (witness): birth March 10, 2000 (leap year, day-of-year 70) with 2018
not a leap year puts the under-18 threshold at day-of-year 69 of 2018. -/
theorem under_age_leap_year_adjustment_witness :
    Data.under_n_until dataDob "DDH" 18 = some ⟨2018, 69⟩ := by
  have h := (under_age_leap_year_adjustment dataDob 18 ⟨2000, 70⟩ (by decide) (by decide)
    (by decide)).2.2.2 (by decide) (by decide) (by decide) (by decide) (by decide)
  exact h.trans (by decide)

/-- C10: when the explicit DDH element decodes to a date, all three age
thresholds return that same date — they all read the single element DDH. -/
theorem under_age_until_single_element (d : Data) (dt : RDate)
    (h : Data.date_field d "DDH" = some dt) :
    Data.under_age_until d = ⟨some dt, some dt, some dt⟩ := by
  simp [Data.under_age_until, Data.under_n_until, h]

/-- C10 (witness): a DDH token "20390310" (March 10, 2039, day-of-year 69)
yields that same date for all three thresholds. -/
theorem under_age_until_single_element_witness :
    Data.under_age_until dataDdh = ⟨some ⟨2039, 69⟩, some ⟨2039, 69⟩, some ⟨2039, 69⟩⟩ :=
  under_age_until_single_element dataDdh ⟨2039, 69⟩ (by decide)
